import Mathlib

/-!
Verification of the tk-ng native extension's photo-image and utility
bindings (`src/ext/tk/tkphoto.c`, `src/ext/tk/tkutil.c`) against the
repository specification.

The binding functions are shallowly embedded: each `interp_*` definition
mirrors the control flow of the corresponding C function line by line
(argument validation, option parsing, handle lookup, native call,
result marshalling).  Each embedded binding returns the ordered list of
native Tk entry points it invoked together with its outcome, so that
"error reported before any native call" properties are directly
expressible.  The native Tk photo-image operations themselves are not
part of the repository; they are modelled from the specification's
description of their contracts (see the `Modelled from the spec:` doc
comments).
-/

namespace TkNg

/-- Modelled from the spec: a Tk photo image (glossary: "a toolkit-managed
in-memory bitmap referenced by a textual handle name").  Internal storage
is a flat byte list in RGBA order, 4 bytes per pixel, row pitch
`width * 4`; this is the layout `Tk_PhotoGetImage` reports. -/
structure Photo where
  width : Nat
  height : Nat
  data : List Nat
deriving DecidableEq, Repr

/-- A `Tk_PhotoImageBlock`: pixel bytes plus geometry and the byte
offsets of the four channels inside one pixel, exactly the fields the
C bindings fill in. -/
structure Block where
  pixel : List Nat
  width : Nat
  height : Nat
  pitch : Nat
  pixelSize : Nat
  offR : Nat
  offG : Nat
  offB : Nat
  offA : Nat
deriving DecidableEq, Repr

/-- One native Tk entry point invocation, recorded in order by each
embedded binding. -/
inductive NativeCall where
  | findPhoto (path : String)
  | photoGetImage
  | putBlock (b : Block) (x y w h : Int)
  | putZoomedBlock (b : Block) (x y dw dh zx zy sx sy : Int)
  | listSplit (s : String)
  | coordsToWindow (x y : Int)
deriving DecidableEq, Repr

/-- A Ruby exception raised by a binding: `rb_eArgError` or `eTclError`. -/
inductive RubyErr where
  | argError (msg : String)
  | tclError (msg : String)
deriving DecidableEq, Repr

/-- The toolkit's photo registry: handle name to photo image. -/
abbrev TkEnv := List (String × Photo)

/-- `Tk_FindPhoto`: look a photo image up by its Tcl path name. -/
def findPhoto (env : TkEnv) (path : String) : Option Photo :=
  env.lookup path

/-- Store the updated photo back under its handle name. -/
def envSet (env : TkEnv) (path : String) (p : Photo) : TkEnv :=
  (path, p) :: env

/-- Byte offset of internal channel `c` (0 = red, 1 = green, 2 = blue,
3 = alpha) inside a source pixel of block `b`. -/
def chanOff (b : Block) (c : Nat) : Nat :=
  if c = 0 then b.offR else if c = 1 then b.offG else if c = 2 then b.offB else b.offA

/-- Modelled from the spec: the effect of `Tk_PhotoPutBlock` (native Tk,
not in this repository).  The destination region `[x, x+w) × [y, y+h)`
is overwritten (`TK_PHOTO_COMPOSITE_SET`); the image grows if the region
extends past its current extent; each written internal channel `c` of
destination pixel `(col, row)` is read from the source block at byte
`(row-y)*pitch + (col-x)*pixelSize + offset[c]`. -/
def putBlockCore (img : Photo) (b : Block) (x y w h : Nat) : Photo :=
  let W := max img.width (x + w)
  let H := max img.height (y + h)
  { width := W
    height := H
    data := (List.range (H * (W * 4))).map fun k =>
      let row := k / (W * 4)
      let s := k % (W * 4)
      let col := s / 4
      let c := s % 4
      if x ≤ col ∧ col < x + w ∧ y ≤ row ∧ row < y + h then
        b.pixel.getD ((row - y) * b.pitch + (col - x) * b.pixelSize + chanOff b c) 0
      else if col < img.width ∧ row < img.height then
        img.data.getD (row * (img.width * 4) + col * 4 + c) 0
      else 0 }

/-- Modelled from the spec: `Tk_PhotoPutBlock` fails (returns `TCL_ERROR`)
rather than write outside the image, and otherwise performs
`putBlockCore`. -/
def Tk_PhotoPutBlock (img : Photo) (b : Block) (x y w h : Int) : Option Photo :=
  if x < 0 ∨ y < 0 then none
  else some (putBlockCore img b x.toNat y.toNat w.toNat h.toNat)

/-- Modelled from the spec: the effect of `Tk_PhotoPutZoomedBlock`
(native Tk, not in this repository).  "Zoom replicates pixels
(zoom=3 makes each pixel 3x3). Subsample skips pixels (subsample=2 takes
every other pixel)": destination pixel `(col, row)` of the region reads
source pixel `((col-x)/zx*sx, (row-y)/zy*sy)`. -/
def putZoomedCore (img : Photo) (b : Block) (x y dw dh zx zy sx sy : Nat) : Photo :=
  let W := max img.width (x + dw)
  let H := max img.height (y + dh)
  { width := W
    height := H
    data := (List.range (H * (W * 4))).map fun k =>
      let row := k / (W * 4)
      let s := k % (W * 4)
      let col := s / 4
      let c := s % 4
      if x ≤ col ∧ col < x + dw ∧ y ≤ row ∧ row < y + dh then
        b.pixel.getD ((((row - y) / zy) * sy) * b.pitch + (((col - x) / zx) * sx) * b.pixelSize + chanOff b c) 0
      else if col < img.width ∧ row < img.height then
        img.data.getD (row * (img.width * 4) + col * 4 + c) 0
      else 0 }

/-- Modelled from the spec: `Tk_PhotoPutZoomedBlock` fails rather than
accept negative destination offsets or non-positive factors, and
otherwise performs `putZoomedCore`. -/
def Tk_PhotoPutZoomedBlock (img : Photo) (b : Block) (x y dw dh zx zy sx sy : Int) : Option Photo :=
  if x < 0 ∨ y < 0 ∨ zx ≤ 0 ∨ zy ≤ 0 ∨ sx ≤ 0 ∨ sy ≤ 0 then none
  else some (putZoomedCore img b x.toNat y.toNat dw.toNat dh.toNat zx.toNat zy.toNat sx.toNat sy.toNat)

/-- Modelled from the spec: `Tk_PhotoGetImage` exposes the image's
internal storage as a block: RGBA channel offsets `0,1,2,3`, 4 bytes per
pixel, pitch `width * 4`. -/
def Tk_PhotoGetImage (img : Photo) : Block :=
  { pixel := img.data
    width := img.width
    height := img.height
    pitch := img.width * 4
    pixelSize := 4
    offR := 0
    offG := 1
    offB := 2
    offA := 3 }

/-- The options hash accepted by `photo_put_block`: `:x`, `:y`,
`:format` (a symbol, recorded by name). -/
structure PutBlockOpts where
  x : Option Int := none
  y : Option Int := none
  format : Option String := none
deriving DecidableEq, Repr

/-- The options hash accepted by `photo_put_zoomed_block`. -/
structure PutZoomedOpts where
  x : Option Int := none
  y : Option Int := none
  zoom_x : Option Int := none
  zoom_y : Option Int := none
  subsample_x : Option Int := none
  subsample_y : Option Int := none
  format : Option String := none
deriving DecidableEq, Repr

/-- The options hash accepted by `photo_get_image`. -/
structure GetImageOpts where
  x : Option Int := none
  y : Option Int := none
  width : Option Int := none
  height : Option Int := none
  unpack : Bool := false
deriving DecidableEq, Repr

/-- The size-mismatch message format of both block writers
(`"pixel_data size mismatch: expected %ld bytes, got %ld"`). -/
def sizeMismatchMsg (expected got : Int) : String :=
  "pixel_data size mismatch: expected " ++ toString expected ++ " bytes, got " ++ toString got

/-- The `Tk_PhotoImageBlock` both writers build from their arguments:
`pitch = width*4`, `pixelSize = 4`, and channel offsets `[2,1,0,3]`
(red at byte 2, green at 1, blue at 0, alpha at 3) in `:argb` mode,
`[0,1,2,3]` otherwise (tkphoto.c lines 85-104 and 219-238). -/
def mkPutBlock (pixel_data : List Nat) (width height : Int) (is_argb : Bool) : Block :=
  { pixel := pixel_data
    width := width.toNat
    height := height.toNat
    pitch := (width * 4).toNat
    pixelSize := 4
    offR := if is_argb then 2 else 0
    offG := 1
    offB := if is_argb then 0 else 2
    offA := 3 }

/-- Embedding of `interp_photo_put_block` (tkphoto.c lines 32-114):
validate dimensions, validate the buffer size, parse options, look the
photo up, build the block, call `Tk_PhotoPutBlock`.  Returns the native
calls made, in order, and the outcome. -/
def interp_photo_put_block (env : TkEnv) (photo_path : String) (pixel_data : List Nat)
    (width height : Int) (opts : Option PutBlockOpts) :
    List NativeCall × Except RubyErr TkEnv :=
  if width ≤ 0 ∨ height ≤ 0 then
    ([], .error (.argError "width and height must be positive"))
  else
    let expected_size : Int := width * height * 4
    if (pixel_data.length : Int) ≠ expected_size then
      ([], .error (.argError (sizeMismatchMsg expected_size pixel_data.length)))
    else
      let x_off : Int := (opts.bind (·.x)).getD 0
      let y_off : Int := (opts.bind (·.y)).getD 0
      let is_argb : Bool := (opts.bind (·.format)) == some "argb"
      match findPhoto env photo_path with
      | none =>
        ([.findPhoto photo_path], .error (.tclError ("photo image not found: " ++ photo_path)))
      | some img =>
        let block := mkPutBlock pixel_data width height is_argb
        match Tk_PhotoPutBlock img block x_off y_off width height with
        | none =>
          ([.findPhoto photo_path, .putBlock block x_off y_off width height],
           .error (.tclError "Tk_PhotoPutBlock failed"))
        | some img2 =>
          ([.findPhoto photo_path, .putBlock block x_off y_off width height],
           .ok (envSet env photo_path img2))

/-- Embedding of `interp_photo_put_zoomed_block` (tkphoto.c lines
143-254): validate dimensions, validate the buffer size, parse options,
validate zoom and subsample factors, look the photo up, build the block,
compute destination size, call `Tk_PhotoPutZoomedBlock`. -/
def interp_photo_put_zoomed_block (env : TkEnv) (photo_path : String) (pixel_data : List Nat)
    (width height : Int) (opts : Option PutZoomedOpts) :
    List NativeCall × Except RubyErr TkEnv :=
  if width ≤ 0 ∨ height ≤ 0 then
    ([], .error (.argError "width and height must be positive"))
  else
    let expected_size : Int := width * height * 4
    if (pixel_data.length : Int) ≠ expected_size then
      ([], .error (.argError (sizeMismatchMsg expected_size pixel_data.length)))
    else
      let x_off : Int := (opts.bind (·.x)).getD 0
      let y_off : Int := (opts.bind (·.y)).getD 0
      let zoom_x : Int := (opts.bind (·.zoom_x)).getD 1
      let zoom_y : Int := (opts.bind (·.zoom_y)).getD 1
      let subsample_x : Int := (opts.bind (·.subsample_x)).getD 1
      let subsample_y : Int := (opts.bind (·.subsample_y)).getD 1
      let is_argb : Bool := (opts.bind (·.format)) == some "argb"
      if zoom_x ≤ 0 ∨ zoom_y ≤ 0 then
        ([], .error (.argError "zoom factors must be positive"))
      else if subsample_x ≤ 0 ∨ subsample_y ≤ 0 then
        ([], .error (.argError "subsample factors must be positive"))
      else
        match findPhoto env photo_path with
        | none =>
          ([.findPhoto photo_path], .error (.tclError ("photo image not found: " ++ photo_path)))
        | some img =>
          let block := mkPutBlock pixel_data width height is_argb
          let dest_width := (width / subsample_x) * zoom_x
          let dest_height := (height / subsample_y) * zoom_y
          match Tk_PhotoPutZoomedBlock img block x_off y_off dest_width dest_height
              zoom_x zoom_y subsample_x subsample_y with
          | none =>
            ([.findPhoto photo_path,
              .putZoomedBlock block x_off y_off dest_width dest_height
                zoom_x zoom_y subsample_x subsample_y],
             .error (.tclError "Tk_PhotoPutZoomedBlock failed"))
          | some img2 =>
            ([.findPhoto photo_path,
              .putZoomedBlock block x_off y_off dest_width dest_height
                zoom_x zoom_y subsample_x subsample_y],
             .ok (envSet env photo_path img2))

/-- The binary-string read loop of `interp_photo_get_image` (tkphoto.c
lines 381-390): for each row and column of the clamped region, emit the
bytes at the block's red, green, blue and alpha offsets (alpha is 255
when the source pixel has fewer than 4 bytes). -/
def getImageData (b : Block) (x0 y0 aw ah : Nat) : List Nat :=
  (List.range ah).flatMap fun y =>
    (List.range aw).flatMap fun x =>
      [b.pixel.getD ((y0 + y) * b.pitch + (x0 + x) * b.pixelSize + b.offR) 0,
       b.pixel.getD ((y0 + y) * b.pitch + (x0 + x) * b.pixelSize + b.offG) 0,
       b.pixel.getD ((y0 + y) * b.pitch + (x0 + x) * b.pixelSize + b.offB) 0,
       if 4 ≤ b.pixelSize then
         b.pixel.getD ((y0 + y) * b.pitch + (x0 + x) * b.pixelSize + b.offA) 0
       else 255]

/-- The unpacked read loop of `interp_photo_get_image` (tkphoto.c lines
364-373); it pushes exactly the same byte values as the binary loop,
as integers. -/
def getImagePixels (b : Block) (x0 y0 aw ah : Nat) : List Nat :=
  (List.range ah).flatMap fun y =>
    (List.range aw).flatMap fun x =>
      [b.pixel.getD ((y0 + y) * b.pitch + (x0 + x) * b.pixelSize + b.offR) 0,
       b.pixel.getD ((y0 + y) * b.pitch + (x0 + x) * b.pixelSize + b.offG) 0,
       b.pixel.getD ((y0 + y) * b.pitch + (x0 + x) * b.pixelSize + b.offB) 0,
       if 4 ≤ b.pixelSize then
         b.pixel.getD ((y0 + y) * b.pitch + (x0 + x) * b.pixelSize + b.offA) 0
       else 255]

/-- The payload of the hash `photo_get_image` returns: `:data` (binary
string) or `:pixels` (flat integer array). -/
inductive GetPayload where
  | data (bytes : List Nat)
  | pixels (vals : List Nat)
deriving DecidableEq, Repr

/-- The hash `photo_get_image` returns: `:width`, `:height`, and the
pixel payload. -/
structure GetImageResult where
  width : Int
  height : Int
  payload : GetPayload
deriving DecidableEq, Repr

/-- Embedding of `interp_photo_get_image` (tkphoto.c lines 278-396):
look the photo up, fetch its block, parse options, clamp negative
offsets to 0, reject offsets outside the image, clamp the region to the
image extent, reject empty regions, then marshal the pixels. -/
def interp_photo_get_image (env : TkEnv) (photo_path : String)
    (opts : Option GetImageOpts) :
    List NativeCall × Except RubyErr GetImageResult :=
  match findPhoto env photo_path with
  | none =>
    ([.findPhoto photo_path], .error (.tclError ("photo image not found: " ++ photo_path)))
  | some img =>
    let block := Tk_PhotoGetImage img
    let img_width : Int := block.width
    let img_height : Int := block.height
    let x_off0 : Int := (opts.bind (·.x)).getD 0
    let y_off0 : Int := (opts.bind (·.y)).getD 0
    let req_width : Int := (opts.bind (·.width)).getD img_width
    let req_height : Int := (opts.bind (·.height)).getD img_height
    let do_unpack : Bool := (opts.map (·.unpack)).getD false
    let x_off : Int := if x_off0 < 0 then 0 else x_off0
    let y_off : Int := if y_off0 < 0 then 0 else y_off0
    if x_off ≥ img_width ∨ y_off ≥ img_height then
      ([.findPhoto photo_path, .photoGetImage], .error (.argError "offset outside image bounds"))
    else
      let actual_width : Int := if x_off + req_width > img_width then img_width - x_off else req_width
      let actual_height : Int := if y_off + req_height > img_height then img_height - y_off else req_height
      if actual_width ≤ 0 ∨ actual_height ≤ 0 then
        ([.findPhoto photo_path, .photoGetImage], .error (.argError "invalid region size"))
      else if do_unpack then
        ([.findPhoto photo_path, .photoGetImage],
         .ok { width := actual_width, height := actual_height,
               payload := .pixels (getImagePixels block x_off.toNat y_off.toNat
                 actual_width.toNat actual_height.toNat) })
      else
        ([.findPhoto photo_path, .photoGetImage],
         .ok { width := actual_width, height := actual_height,
               payload := .data (getImageData block x_off.toNat y_off.toNat
                 actual_width.toNat actual_height.toNat) })

/-- Embedding of `interp_tcl_split_list` (tkutil.c lines 15-56).  `nil`
and the empty string return an empty array before any native list call;
otherwise the native `Tcl_ListObjGetElements` (not in this repository,
passed in as `split`; `none` is a parse failure) decides the outcome. -/
def interp_tcl_split_list (split : String → Option (List String))
    (input : Option String) :
    List NativeCall × Except RubyErr (List String) :=
  match input with
  | none => ([], .ok [])
  | some s =>
    if s.length = 0 then ([], .ok [])
    else
      ([.listSplit s],
       match split s with
       | none => .error (.tclError "invalid Tcl list")
       | some elems => .ok elems)

/-- The Tk window-system state `interp_coords_to_window` consults:
the main window (absent when Tk is uninitialized), the native
`Tk_CoordsToWindow` hit test, and `Tk_PathName` (windows are opaque
ids; a window may lack a path name). -/
structure WinEnv where
  mainWin : Option Nat
  coordsToWin : Int → Int → Option Nat
  pathName : Nat → Option String

/-- Embedding of `interp_coords_to_window` (tkutil.c lines 152-179):
require the main window, hit-test the coordinates, return the found
window's path name, or `nil` when no window is found or it has no
path name. -/
def interp_coords_to_window (env : WinEnv) (root_x root_y : Int) :
    List NativeCall × Except RubyErr (Option String) :=
  match env.mainWin with
  | none => ([], .error (.tclError "Tk not initialized (no main window)"))
  | some _ =>
    ([.coordsToWindow root_x root_y],
     match env.coordsToWin root_x root_y with
     | none => .ok none
     | some w =>
       match env.pathName w with
       | none => .ok none
       | some p => .ok (some p))

/-- Spec-side description of an ARGB-written buffer read back in RGBA
order: each output pixel's bytes `[R,G,B,A]` are the corresponding input
pixel's bytes at offsets `[2,1,0,3]`. -/
def argbReadback (l : List Nat) (npix : Nat) : List Nat :=
  (List.range npix).flatMap fun p =>
    [l.getD (p * 4 + 2) 0, l.getD (p * 4 + 1) 0, l.getD (p * 4 + 0) 0, l.getD (p * 4 + 3) 0]

/-! ### General list and arithmetic helpers -/

theorem flatMap_congr_mem {α β : Type} {l : List α} {f g : α → List β}
    (h : ∀ a ∈ l, f a = g a) : l.flatMap f = l.flatMap g := by
  induction l with
  | nil => rfl
  | cons a t ih =>
    rw [List.flatMap_cons, List.flatMap_cons, h a (by simp),
      ih (fun b hb => h b (by simp [hb]))]

theorem range_map_four (g : Nat → Nat) : [g 0, g 1, g 2, g 3] = (List.range 4).map g := rfl

theorem range_map_chunk (f : Nat → Nat) (k : Nat) :
    ∀ n, (List.range n).flatMap (fun i => (List.range k).map fun j => f (i * k + j)) =
      (List.range (n * k)).map f := by
  intro n
  induction n with
  | zero => simp
  | succ n ih =>
    rw [List.range_succ, List.flatMap_append, ih]
    have h2 : (n + 1) * k = n * k + k := by ring
    rw [h2, List.range_add, List.map_append]
    simp [List.map_map, Function.comp]

theorem range_flatMap_chunk (F : Nat → List Nat) (k : Nat) :
    ∀ n, (List.range n).flatMap (fun i => (List.range k).flatMap fun j => F (i * k + j)) =
      (List.range (n * k)).flatMap F := by
  intro n
  induction n with
  | zero => simp
  | succ n ih =>
    rw [List.range_succ, List.flatMap_append, ih]
    have h2 : (n + 1) * k = n * k + k := by ring
    rw [h2, List.range_add, List.flatMap_append]
    simp [List.flatMap_map]

theorem getD_range_map (f : Nat → Nat) (n i : Nat) (h : i < n) :
    ((List.range n).map f).getD i 0 = f i := by
  rw [List.getD_eq_getElem?_getD, List.getElem?_eq_getElem (by simpa using h)]
  simp

theorem list_eq_range_map_getD (l : List Nat) :
    (List.range l.length).map (fun i => l.getD i 0) = l := by
  apply List.ext_getElem (by simp)
  intro i h1 h2
  simp [List.getD_eq_getElem?_getD, List.getElem?_eq_getElem h2]

theorem chunk_div (r P t : Nat) (h : t < P) : (r * P + t) / P = r := by
  rw [Nat.mul_comm r P, Nat.add_comm, Nat.add_mul_div_left _ _ (by omega : 0 < P),
    Nat.div_eq_of_lt h]
  omega

theorem chunk_mod (r P t : Nat) (h : t < P) : (r * P + t) % P = t := by
  rw [Nat.mul_comm r P, Nat.add_comm, Nat.add_mul_mod_self_left, Nat.mod_eq_of_lt h]

/-! ### Pointwise description of a block write -/

theorem putBlockCore_width (img : Photo) (b : Block) (x y w h : Nat) :
    (putBlockCore img b x y w h).width = max img.width (x + w) := rfl

theorem putBlockCore_height (img : Photo) (b : Block) (x y w h : Nat) :
    (putBlockCore img b x y w h).height = max img.height (y + h) := rfl

theorem putBlockCore_getD (img : Photo) (b : Block) (x y w h row col c : Nat)
    (hW : x + w ≤ img.width) (hH : y + h ≤ img.height)
    (hcol : col < img.width) (hrow : row < img.height) (hc : c < 4) :
    (putBlockCore img b x y w h).data.getD (row * (img.width * 4) + (col * 4 + c)) 0 =
      if x ≤ col ∧ col < x + w ∧ y ≤ row ∧ row < y + h then
        b.pixel.getD ((row - y) * b.pitch + (col - x) * b.pixelSize + chanOff b c) 0
      else img.data.getD (row * (img.width * 4) + col * 4 + c) 0 := by
  have hWW : max img.width (x + w) = img.width := Nat.max_eq_left hW
  have hHH : max img.height (y + h) = img.height := Nat.max_eq_left hH
  have ht : col * 4 + c < img.width * 4 := by omega
  have hidx : row * (img.width * 4) + (col * 4 + c) < img.height * (img.width * 4) := by
    have h1 : row * (img.width * 4) + (col * 4 + c) < (row + 1) * (img.width * 4) := by
      rw [Nat.succ_mul]; omega
    have h2 : (row + 1) * (img.width * 4) ≤ img.height * (img.width * 4) :=
      mul_le_mul_right' (by omega) _
    omega
  unfold putBlockCore
  simp only [hWW, hHH]
  rw [getD_range_map _ _ _ hidx]
  simp only [chunk_div _ _ _ ht, chunk_mod _ _ _ ht,
    chunk_div col 4 c hc, chunk_mod col 4 c hc]
  split
  · rfl
  · rw [if_pos ⟨hcol, hrow⟩]

/-! ### Reading back a freshly written region -/

theorem getImageData_putBlockCore (img : Photo) (b : Block) (x y w h : Nat)
    (hW : x + w ≤ img.width) (hH : y + h ≤ img.height)
    (hpitch : b.pitch = w * 4) (hps : b.pixelSize = 4) :
    getImageData (Tk_PhotoGetImage (putBlockCore img b x y w h)) x y w h =
      (List.range (h * w)).flatMap fun p =>
        [b.pixel.getD (p * 4 + b.offR) 0,
         b.pixel.getD (p * 4 + b.offG) 0,
         b.pixel.getD (p * 4 + b.offB) 0,
         b.pixel.getD (p * 4 + b.offA) 0] := by
  have hkey : ∀ yy < h, ∀ xx < w, ∀ c < 4,
      (putBlockCore img b x y w h).data.getD
        ((y + yy) * (img.width * 4) + (x + xx) * 4 + c) 0 =
        b.pixel.getD ((yy * w + xx) * 4 + chanOff b c) 0 := by
    intro yy hyy xx hxx c hc
    rw [Nat.add_assoc]
    rw [putBlockCore_getD img b x y w h (y + yy) (x + xx) c hW hH
      (by omega) (by omega) hc]
    rw [if_pos ⟨by omega, by omega, by omega, by omega⟩]
    rw [Nat.add_sub_cancel_left, Nat.add_sub_cancel_left, hpitch, hps]
    congr 1
    ring
  calc getImageData (Tk_PhotoGetImage (putBlockCore img b x y w h)) x y w h
      = (List.range h).flatMap (fun yy => (List.range w).flatMap fun xx =>
          [b.pixel.getD ((yy * w + xx) * 4 + chanOff b 0) 0,
           b.pixel.getD ((yy * w + xx) * 4 + chanOff b 1) 0,
           b.pixel.getD ((yy * w + xx) * 4 + chanOff b 2) 0,
           b.pixel.getD ((yy * w + xx) * 4 + chanOff b 3) 0]) := by
        unfold getImageData Tk_PhotoGetImage
        apply flatMap_congr_mem
        intro yy hyy
        rw [List.mem_range] at hyy
        apply flatMap_congr_mem
        intro xx hxx
        rw [List.mem_range] at hxx
        simp only [putBlockCore_width, Nat.max_eq_left hW]
        rw [if_pos (by norm_num : (4:Nat) ≤ 4)]
        rw [hkey yy hyy xx hxx 0 (by omega), hkey yy hyy xx hxx 1 (by omega),
          hkey yy hyy xx hxx 2 (by omega), hkey yy hyy xx hxx 3 (by omega)]
    _ = (List.range (h * w)).flatMap fun p =>
          [b.pixel.getD (p * 4 + b.offR) 0,
           b.pixel.getD (p * 4 + b.offG) 0,
           b.pixel.getD (p * 4 + b.offB) 0,
           b.pixel.getD (p * 4 + b.offA) 0] :=
        range_flatMap_chunk (fun p =>
          [b.pixel.getD (p * 4 + chanOff b 0) 0,
           b.pixel.getD (p * 4 + chanOff b 1) 0,
           b.pixel.getD (p * 4 + chanOff b 2) 0,
           b.pixel.getD (p * 4 + chanOff b 3) 0]) w h

theorem getImageData_putBlockCore_rgba (img : Photo) (l : List Nat) (x y w h : Nat)
    (hW : x + w ≤ img.width) (hH : y + h ≤ img.height) (hl : l.length = w * h * 4) :
    getImageData (Tk_PhotoGetImage (putBlockCore img
      { pixel := l, width := w, height := h, pitch := w * 4, pixelSize := 4,
        offR := 0, offG := 1, offB := 2, offA := 3 } x y w h)) x y w h = l := by
  rw [getImageData_putBlockCore _ _ _ _ _ _ hW hH rfl rfl]
  calc (List.range (h * w)).flatMap (fun p =>
          (List.range 4).map fun c => l.getD (p * 4 + c) 0)
      = (List.range ((h * w) * 4)).map (fun c => l.getD c 0) :=
        range_map_chunk (fun c => l.getD c 0) 4 (h * w)
    _ = l := by
        rw [show (h * w) * 4 = l.length from by rw [hl]; ring]
        exact list_eq_range_map_getD l

theorem getImageData_putBlockCore_argb (img : Photo) (l : List Nat) (x y w h : Nat)
    (hW : x + w ≤ img.width) (hH : y + h ≤ img.height) :
    getImageData (Tk_PhotoGetImage (putBlockCore img
      { pixel := l, width := w, height := h, pitch := w * 4, pixelSize := 4,
        offR := 2, offG := 1, offB := 0, offA := 3 } x y w h)) x y w h
      = argbReadback l (h * w) := by
  rw [getImageData_putBlockCore _ _ _ _ _ _ hW hH rfl rfl]
  rfl

/-! ### Evaluating the bindings on their success paths -/

theorem mkPutBlock_rgba (l : List Nat) (w h : Nat) :
    mkPutBlock l (w : Int) (h : Int) false =
      { pixel := l, width := w, height := h, pitch := w * 4, pixelSize := 4,
        offR := 0, offG := 1, offB := 2, offA := 3 } := by
  simp [mkPutBlock, Block.mk.injEq]
  all_goals omega

theorem mkPutBlock_argb (l : List Nat) (w h : Nat) :
    mkPutBlock l (w : Int) (h : Int) true =
      { pixel := l, width := w, height := h, pitch := w * 4, pixelSize := 4,
        offR := 2, offG := 1, offB := 0, offA := 3 } := by
  simp [mkPutBlock, Block.mk.injEq]
  all_goals omega

theorem interp_photo_put_block_success (env : TkEnv) (path : String) (img : Photo)
    (l : List Nat) (w h x y : Nat) (fmt : Option String)
    (hfind : findPhoto env path = some img)
    (hw : 0 < w) (hh : 0 < h)
    (hl : (l.length : Int) = (w : Int) * (h : Int) * 4) :
    interp_photo_put_block env path l (w : Int) (h : Int)
        (some { x := some (x : Int), y := some (y : Int), format := fmt }) =
      ([.findPhoto path,
        .putBlock (mkPutBlock l (w : Int) (h : Int) (fmt == some "argb")) x y w h],
       .ok (envSet env path
         (putBlockCore img (mkPutBlock l (w : Int) (h : Int) (fmt == some "argb")) x y w h))) := by
  have c1 : ¬((w : Int) ≤ 0 ∨ (h : Int) ≤ 0) := by omega
  have c2 : ¬((l.length : Int) ≠ (w : Int) * (h : Int) * 4) := not_not_intro hl
  have c3 : ¬((x : Int) < 0 ∨ (y : Int) < 0) := by omega
  simp only [interp_photo_put_block, Option.some_bind, Option.getD_some, hfind,
    Tk_PhotoPutBlock, Int.toNat_natCast, c1, c2, c3, if_false, ite_false]

theorem interp_photo_get_image_region (env : TkEnv) (path : String) (img : Photo)
    (x y w h : Nat)
    (hfind : findPhoto env path = some img)
    (hw : 0 < w) (hh : 0 < h)
    (hW : x + w ≤ img.width) (hH : y + h ≤ img.height) :
    interp_photo_get_image env path
        (some { x := some (x : Int), y := some (y : Int),
                width := some (w : Int), height := some (h : Int) }) =
      ([.findPhoto path, .photoGetImage],
       .ok { width := (w : Int), height := (h : Int),
             payload := .data (getImageData (Tk_PhotoGetImage img) x y w h) }) := by
  have c1 : ¬((x : Int) < 0) := by omega
  have c2 : ¬((y : Int) < 0) := by omega
  have c3 : ¬((x : Int) ≥ (img.width : Int) ∨ (y : Int) ≥ (img.height : Int)) := by omega
  have c4 : ¬((x : Int) + (w : Int) > (img.width : Int)) := by omega
  have c5 : ¬((y : Int) + (h : Int) > (img.height : Int)) := by omega
  have c6 : ¬((w : Int) ≤ 0 ∨ (h : Int) ≤ 0) := by omega
  simp only [interp_photo_get_image, hfind, Tk_PhotoGetImage, Option.some_bind,
    Option.getD_some, Option.map_some', Int.toNat_natCast, c1, c2, c3, c4, c5, c6,
    if_false, ite_false, Bool.false_eq_true]

/-! ### Shape of the native-call traces of the block writers -/

theorem interp_photo_put_block_trace (env : TkEnv) (path : String) (l : List Nat)
    (w h : Int) (po : Option PutBlockOpts) :
    ∀ c ∈ (interp_photo_put_block env path l w h po).1,
      c = .findPhoto path ∨
      c = .putBlock (mkPutBlock l w h ((po.bind (·.format)) == some "argb"))
          ((po.bind (·.x)).getD 0) ((po.bind (·.y)).getD 0) w h := by
  intro c hc
  simp only [interp_photo_put_block] at hc
  split at hc
  · simp only [List.not_mem_nil] at hc
  · split at hc
    · simp only [List.not_mem_nil] at hc
    · split at hc
      · simp only [List.mem_cons, List.not_mem_nil, or_false] at hc
        exact Or.inl hc
      · split at hc <;>
        · simp only [List.mem_cons, List.not_mem_nil, or_false] at hc
          rcases hc with hc | hc
          · exact Or.inl hc
          · exact Or.inr hc

theorem interp_photo_put_zoomed_block_trace (env : TkEnv) (path : String) (l : List Nat)
    (w h : Int) (zo : Option PutZoomedOpts) :
    ∀ c ∈ (interp_photo_put_zoomed_block env path l w h zo).1,
      c = .findPhoto path ∨
      ∃ xo yo dw dh zx zy sx sy,
        c = .putZoomedBlock (mkPutBlock l w h ((zo.bind (·.format)) == some "argb"))
          xo yo dw dh zx zy sx sy := by
  intro c hc
  simp only [interp_photo_put_zoomed_block] at hc
  split at hc
  · simp only [List.not_mem_nil] at hc
  · split at hc
    · simp only [List.not_mem_nil] at hc
    · split at hc
      · simp only [List.not_mem_nil] at hc
      · split at hc
        · simp only [List.not_mem_nil] at hc
        · split at hc
          · simp only [List.mem_cons, List.not_mem_nil, or_false] at hc
            exact Or.inl hc
          · split at hc <;>
            · simp only [List.mem_cons, List.not_mem_nil, or_false] at hc
              rcases hc with hc | hc
              · exact Or.inl hc
              · exact Or.inr ⟨_, _, _, _, _, _, _, _, hc⟩

/-! ## The claims -/

/-- C1: for both block writers, with positive width and height, a pixel
buffer whose length differs from `width*height*4` is rejected with the
size-mismatch argument error, and the rejection happens before any
native Tk call: the call trace is empty, so in particular the photo
handle is never looked up and no image is changed. -/
theorem put_block_size_mismatch_before_native (env : TkEnv) (path : String) (l : List Nat)
    (w h : Int) (po : Option PutBlockOpts) (zo : Option PutZoomedOpts)
    (hw : 0 < w) (hh : 0 < h) (hne : (l.length : Int) ≠ w * h * 4) :
    interp_photo_put_block env path l w h po =
      ([], .error (.argError (sizeMismatchMsg (w * h * 4) l.length))) ∧
    interp_photo_put_zoomed_block env path l w h zo =
      ([], .error (.argError (sizeMismatchMsg (w * h * 4) l.length))) := by
  constructor
  · simp only [interp_photo_put_block]
    rw [if_neg (by omega : ¬(w ≤ 0 ∨ h ≤ 0)), if_pos hne]
  · simp only [interp_photo_put_zoomed_block]
    rw [if_neg (by omega : ¬(w ≤ 0 ∨ h ≤ 0)), if_pos hne]

/-- C1 witness: a 1x1 write with a 1-byte buffer is rejected before any
native call by both writers. -/
theorem put_block_size_mismatch_before_native_witness :
    interp_photo_put_block [] "p" [7] 1 1 none =
      ([], .error (.argError (sizeMismatchMsg 4 1))) ∧
    interp_photo_put_zoomed_block [] "p" [7] 1 1 none =
      ([], .error (.argError (sizeMismatchMsg 4 1))) :=
  put_block_size_mismatch_before_native [] "p" [7] 1 1 none none
    (by decide) (by decide) (by decide)

/-- C2: every native block-write call made by either writer carries
channel offsets `[R,G,B,A] = [2,1,0,3]` (pixel byte order `[B,G,R,A]`)
when the `:format` tag is `:argb`, and `[0,1,2,3]` (pixel byte order
`[R,G,B,A]`) when the tag is absent or `:rgba`. -/
theorem put_block_channel_offsets (env : TkEnv) (path : String) (l : List Nat)
    (w h : Int) (po : Option PutBlockOpts) (zo : Option PutZoomedOpts) :
    (∀ b xo yo w' h',
      NativeCall.putBlock b xo yo w' h' ∈ (interp_photo_put_block env path l w h po).1 →
      (po.bind (·.format) = some "argb" →
        b.offR = 2 ∧ b.offG = 1 ∧ b.offB = 0 ∧ b.offA = 3) ∧
      (po.bind (·.format) = none ∨ po.bind (·.format) = some "rgba" →
        b.offR = 0 ∧ b.offG = 1 ∧ b.offB = 2 ∧ b.offA = 3)) ∧
    (∀ b xo yo dw dh zx zy sx sy,
      NativeCall.putZoomedBlock b xo yo dw dh zx zy sx sy ∈
        (interp_photo_put_zoomed_block env path l w h zo).1 →
      (zo.bind (·.format) = some "argb" →
        b.offR = 2 ∧ b.offG = 1 ∧ b.offB = 0 ∧ b.offA = 3) ∧
      (zo.bind (·.format) = none ∨ zo.bind (·.format) = some "rgba" →
        b.offR = 0 ∧ b.offG = 1 ∧ b.offB = 2 ∧ b.offA = 3)) := by
  constructor
  · intro b xo yo w' h' hmem
    rcases interp_photo_put_block_trace env path l w h po _ hmem with hc | hc
    · exact absurd hc (by simp)
    · have hb : b = mkPutBlock l w h ((po.bind (·.format)) == some "argb") := by
        exact (by simpa [NativeCall.putBlock.injEq] using hc :
          b = _ ∧ xo = _ ∧ yo = _ ∧ w' = w ∧ h' = h).1
      constructor
      · intro hfmt
        subst hb
        simp [mkPutBlock, hfmt]
      · rintro (hfmt | hfmt) <;> subst hb <;> simp [mkPutBlock, hfmt]
  · intro b xo yo dw dh zx zy sx sy hmem
    rcases interp_photo_put_zoomed_block_trace env path l w h zo _ hmem with hc | hc
    · exact absurd hc (by simp)
    · obtain ⟨_, _, _, _, _, _, _, _, he⟩ := hc
      have hb : b = mkPutBlock l w h ((zo.bind (·.format)) == some "argb") := by
        exact (by simpa [NativeCall.putZoomedBlock.injEq] using he :
          b = _ ∧ _ ).1
      constructor
      · intro hfmt
        subst hb
        simp [mkPutBlock, hfmt]
      · rintro (hfmt | hfmt) <;> subst hb <;> simp [mkPutBlock, hfmt]

/-- C2 witness: a concrete ARGB 1x1 write's native call carries the
offsets `[2,1,0,3]`. -/
theorem put_block_channel_offsets_witness :
    (mkPutBlock [9,9,9,9] 1 1 true).offR = 2 ∧ (mkPutBlock [9,9,9,9] 1 1 true).offG = 1 ∧
    (mkPutBlock [9,9,9,9] 1 1 true).offB = 0 ∧ (mkPutBlock [9,9,9,9] 1 1 true).offA = 3 :=
  ((put_block_channel_offsets [("p", ⟨1, 1, [0,0,0,0]⟩)] "p" [9,9,9,9] 1 1
      (some { format := some "argb" }) none).1
    (mkPutBlock [9,9,9,9] 1 1 true) 0 0 1 1 (by decide)).1 rfl

/-- C3: for every pixel buffer of size `width*height*4`, writing it to a
photo image with `photo_put_block` (default RGBA layout, the tag matching
`photo_get_image`'s RGBA output) and then reading back the same region
with `photo_get_image` returns a byte-identical buffer. -/
theorem photo_put_get_roundtrip (env : TkEnv) (path : String) (img : Photo)
    (l : List Nat) (w h x y : Int)
    (hfind : findPhoto env path = some img)
    (hw : 0 < w) (hh : 0 < h) (hx : 0 ≤ x) (hy : 0 ≤ y)
    (hW : x + w ≤ (img.width : Int)) (hH : y + h ≤ (img.height : Int))
    (hl : (l.length : Int) = w * h * 4) :
    ∃ env', (interp_photo_put_block env path l w h
        (some { x := some x, y := some y })).2 = .ok env' ∧
      interp_photo_get_image env' path
          (some { x := some x, y := some y, width := some w, height := some h }) =
        ([.findPhoto path, .photoGetImage],
         .ok { width := w, height := h, payload := .data l }) := by
  lift w to ℕ using hw.le with wn
  lift h to ℕ using hh.le with hn
  lift x to ℕ using hx with xn
  lift y to ℕ using hy with yn
  have hW' : xn + wn ≤ img.width := by exact_mod_cast hW
  have hH' : yn + hn ≤ img.height := by exact_mod_cast hH
  have hw' : 0 < wn := by exact_mod_cast hw
  have hh' : 0 < hn := by exact_mod_cast hh
  have hl' : l.length = wn * hn * 4 := by exact_mod_cast hl
  rw [interp_photo_put_block_success env path img l wn hn xn yn none hfind hw' hh' hl]
  simp only [show ((none : Option String) == some "argb") = false from rfl]
  rw [mkPutBlock_rgba l wn hn]
  set P : Photo := putBlockCore img
      { pixel := l, width := wn, height := hn, pitch := wn * 4, pixelSize := 4,
        offR := 0, offG := 1, offB := 2, offA := 3 } xn yn wn hn with hP
  refine ⟨_, rfl, ?_⟩
  rw [interp_photo_get_image_region (envSet env path P) path P xn yn wn hn
    (by simp [findPhoto, envSet, List.lookup]) hw' hh'
    (by rw [hP, putBlockCore_width]; exact Nat.le_max_right _ _)
    (by rw [hP, putBlockCore_height]; exact Nat.le_max_right _ _)]
  rw [hP, getImageData_putBlockCore_rgba img l xn yn wn hn hW' hH' hl']

/-- C3 witness: a concrete 2x2 round-trip. -/
theorem photo_put_get_roundtrip_witness :
    ∃ env', (interp_photo_put_block [("p", ⟨2, 2, List.replicate 16 0⟩)] "p"
        [1,2,3,4,5,6,7,8,9,10,11,12,13,14,15,16] 2 2
        (some { x := some 0, y := some 0 })).2 = .ok env' ∧
      interp_photo_get_image env' "p"
          (some { x := some 0, y := some 0, width := some 2, height := some 2 }) =
        ([.findPhoto "p", .photoGetImage],
         .ok { width := 2, height := 2,
               payload := .data [1,2,3,4,5,6,7,8,9,10,11,12,13,14,15,16] }) :=
  photo_put_get_roundtrip [("p", ⟨2, 2, List.replicate 16 0⟩)] "p" ⟨2, 2, List.replicate 16 0⟩
    [1,2,3,4,5,6,7,8,9,10,11,12,13,14,15,16] 2 2 0 0 rfl (by decide) (by decide)
    (by decide) (by decide) (by simp) (by simp) (by simp)

/-- C4: a buffer written with `photo_put_block` in `:argb` mode and read
back with `photo_get_image` (RGBA order) shows, for each pixel, the
input bytes permuted by the documented mapping: output bytes `[R,G,B,A]`
are the input bytes at offsets `[2,1,0,3]` (see `argbReadback`). -/
theorem photo_put_argb_get_readback (env : TkEnv) (path : String) (img : Photo)
    (l : List Nat) (w h x y : Int)
    (hfind : findPhoto env path = some img)
    (hw : 0 < w) (hh : 0 < h) (hx : 0 ≤ x) (hy : 0 ≤ y)
    (hW : x + w ≤ (img.width : Int)) (hH : y + h ≤ (img.height : Int))
    (hl : (l.length : Int) = w * h * 4) :
    ∃ env', (interp_photo_put_block env path l w h
        (some { x := some x, y := some y, format := some "argb" })).2 = .ok env' ∧
      interp_photo_get_image env' path
          (some { x := some x, y := some y, width := some w, height := some h }) =
        ([.findPhoto path, .photoGetImage],
         .ok { width := w, height := h,
               payload := .data (argbReadback l (h.toNat * w.toNat)) }) := by
  lift w to ℕ using hw.le with wn
  lift h to ℕ using hh.le with hn
  lift x to ℕ using hx with xn
  lift y to ℕ using hy with yn
  have hW' : xn + wn ≤ img.width := by exact_mod_cast hW
  have hH' : yn + hn ≤ img.height := by exact_mod_cast hH
  have hw' : 0 < wn := by exact_mod_cast hw
  have hh' : 0 < hn := by exact_mod_cast hh
  rw [interp_photo_put_block_success env path img l wn hn xn yn (some "argb") hfind hw' hh' hl]
  simp only [show ((some "argb" : Option String) == some "argb") = true from rfl]
  rw [mkPutBlock_argb l wn hn]
  set P : Photo := putBlockCore img
      { pixel := l, width := wn, height := hn, pitch := wn * 4, pixelSize := 4,
        offR := 2, offG := 1, offB := 0, offA := 3 } xn yn wn hn with hP
  refine ⟨_, rfl, ?_⟩
  rw [interp_photo_get_image_region (envSet env path P) path P xn yn wn hn
    (by simp [findPhoto, envSet, List.lookup]) hw' hh'
    (by rw [hP, putBlockCore_width]; exact Nat.le_max_right _ _)
    (by rw [hP, putBlockCore_height]; exact Nat.le_max_right _ _)]
  rw [hP, getImageData_putBlockCore_argb img l xn yn wn hn hW' hH']
  simp only [Int.toNat_natCast]

/-- C4 witness: a concrete 1x2 ARGB write whose RGBA read-back is the
per-pixel `[2,1,0,3]` permutation of the input. -/
theorem photo_put_argb_get_readback_witness :
    (∃ env', (interp_photo_put_block [("p", ⟨2, 1, List.replicate 8 0⟩)] "p"
        [10,20,30,40,50,60,70,80] 2 1
        (some { x := some 0, y := some 0, format := some "argb" })).2 = .ok env' ∧
      interp_photo_get_image env' "p"
          (some { x := some 0, y := some 0, width := some 2, height := some 1 }) =
        ([.findPhoto "p", .photoGetImage],
         .ok { width := 2, height := 1,
               payload := .data (argbReadback [10,20,30,40,50,60,70,80]
                 ((1 : Int).toNat * (2 : Int).toNat)) })) ∧
    argbReadback [10,20,30,40,50,60,70,80] 2 = [30,20,10,40,70,60,50,80] :=
  ⟨photo_put_argb_get_readback [("p", ⟨2, 1, List.replicate 8 0⟩)] "p"
      ⟨2, 1, List.replicate 8 0⟩ [10,20,30,40,50,60,70,80] 2 1 0 0 rfl
      (by decide) (by decide) (by decide) (by decide) (by simp) (by simp) (by simp),
    by decide⟩

/-- C5: on an existing image, `photo_get_image` with a (nonnegative)
offset at or beyond the image bound fails with the bounds error;
otherwise the requested region is silently clamped to the image's
extent and the returned `:width`/`:height` are the clamped sizes
`min requested (image - offset)`, not the requested sizes. -/
theorem photo_get_image_bounds_and_clamp (env : TkEnv) (path : String) (img : Photo)
    (x y reqw reqh : Int)
    (hfind : findPhoto env path = some img)
    (hx : 0 ≤ x) (hy : 0 ≤ y) :
    ((x ≥ (img.width : Int) ∨ y ≥ (img.height : Int)) →
      interp_photo_get_image env path
          (some { x := some x, y := some y, width := some reqw, height := some reqh }) =
        ([.findPhoto path, .photoGetImage],
         .error (.argError "offset outside image bounds"))) ∧
    (x < (img.width : Int) → y < (img.height : Int) → 0 < reqw → 0 < reqh →
      ∃ pl, interp_photo_get_image env path
          (some { x := some x, y := some y, width := some reqw, height := some reqh }) =
        ([.findPhoto path, .photoGetImage],
         .ok { width := min reqw ((img.width : Int) - x),
               height := min reqh ((img.height : Int) - y),
               payload := pl })) := by
  constructor
  · intro hout
    simp only [interp_photo_get_image, hfind, Tk_PhotoGetImage, Option.some_bind,
      Option.getD_some, Option.map_some']
    rw [if_neg (by omega : ¬(x < 0)), if_neg (by omega : ¬(y < 0)), if_pos hout]
  · intro h1 h2 h3 h4
    refine ⟨.data (getImageData (Tk_PhotoGetImage img) x.toNat y.toNat
      (min reqw ((img.width : Int) - x)).toNat
      (min reqh ((img.height : Int) - y)).toNat), ?_⟩
    simp only [interp_photo_get_image, hfind, Tk_PhotoGetImage, Option.some_bind,
      Option.getD_some, Option.map_some']
    rw [if_neg (by omega : ¬(x < 0)), if_neg (by omega : ¬(y < 0)),
      if_neg (by omega : ¬(x ≥ (img.width : Int) ∨ y ≥ (img.height : Int)))]
    have e1 : (if x + reqw > (img.width : Int) then (img.width : Int) - x else reqw)
        = min reqw ((img.width : Int) - x) := by
      split
      · rw [min_eq_right (by omega)]
      · rw [min_eq_left (by omega)]
    have e2 : (if y + reqh > (img.height : Int) then (img.height : Int) - y else reqh)
        = min reqh ((img.height : Int) - y) := by
      split
      · rw [min_eq_right (by omega)]
      · rw [min_eq_left (by omega)]
    rw [e1, e2]
    rw [if_neg (by omega :
      ¬(min reqw ((img.width : Int) - x) ≤ 0 ∨ min reqh ((img.height : Int) - y) ≤ 0))]
    simp only [Bool.false_eq_true, if_false, ite_false]

/-- C5 witness: on a concrete 2x2 image, offset 5 is rejected and a
10x10 request at offset (1,1) is clamped to 1x1. -/
theorem photo_get_image_bounds_and_clamp_witness :
    (interp_photo_get_image [("p", ⟨2, 2, List.replicate 16 9⟩)] "p"
        (some { x := some 5, y := some 0, width := some 1, height := some 1 }) =
      ([.findPhoto "p", .photoGetImage],
       .error (.argError "offset outside image bounds"))) ∧
    (∃ pl, interp_photo_get_image [("p", ⟨2, 2, List.replicate 16 9⟩)] "p"
        (some { x := some 1, y := some 1, width := some 10, height := some 10 }) =
      ([.findPhoto "p", .photoGetImage],
       .ok { width := min 10 (((2 : Nat) : Int) - 1),
             height := min 10 (((2 : Nat) : Int) - 1), payload := pl })) :=
  ⟨(photo_get_image_bounds_and_clamp [("p", ⟨2, 2, List.replicate 16 9⟩)] "p"
      ⟨2, 2, List.replicate 16 9⟩ 5 0 1 1 rfl (by decide) (by decide)).1 (by simp),
   (photo_get_image_bounds_and_clamp [("p", ⟨2, 2, List.replicate 16 9⟩)] "p"
      ⟨2, 2, List.replicate 16 9⟩ 1 1 10 10 rfl (by decide) (by decide)).2
     (by simp) (by simp) (by decide) (by decide)⟩

/-- C6 counterexample: the claim that `photo_get_image` reports an
out-of-range region without first invoking any native Tk entry point is
false: at a concrete 2x2 image and offset 5 the out-of-range argument
error is reported, yet the native-call trace at that point is nonempty
(`Tk_FindPhoto` and `Tk_PhotoGetImage` have already run — the region
check needs the image's size). -/
theorem get_image_out_of_range_after_native_calls :
    (interp_photo_get_image [("p", ⟨2, 2, List.replicate 16 0⟩)] "p"
        (some { x := some 5 })).2 = .error (.argError "offset outside image bounds") ∧
    ¬ (interp_photo_get_image [("p", ⟨2, 2, List.replicate 16 0⟩)] "p"
        (some { x := some 5 })).1 = [] :=
  ⟨rfl, by decide⟩

/-- C6 (amended): every argument-validation error of the two block
writers is reported before any native call (empty trace); an
argument-validation error of `photo_get_image` is reported after
exactly the handle lookup (`Tk_FindPhoto`) and the image fetch
(`Tk_PhotoGetImage`), with no further native calls. -/
theorem validation_errors_and_native_calls :
    (∀ env path l w h po tr e m, interp_photo_put_block env path l w h po = (tr, e) →
      e = .error (.argError m) → tr = []) ∧
    (∀ env path l w h zo tr e m, interp_photo_put_zoomed_block env path l w h zo = (tr, e) →
      e = .error (.argError m) → tr = []) ∧
    (∀ env path o tr e m, interp_photo_get_image env path o = (tr, e) →
      e = .error (.argError m) → tr = [.findPhoto path, .photoGetImage]) := by
  refine ⟨?_, ?_, ?_⟩
  · intro env path l w h po tr e m hpair hm
    simp only [interp_photo_put_block] at hpair
    repeat' split at hpair
    all_goals rw [Prod.mk.injEq] at hpair
    all_goals obtain ⟨h1, h2⟩ := hpair
    all_goals subst h1
    all_goals subst h2
    all_goals first | rfl | simp at hm
  · intro env path l w h zo tr e m hpair hm
    simp only [interp_photo_put_zoomed_block] at hpair
    repeat' split at hpair
    all_goals rw [Prod.mk.injEq] at hpair
    all_goals obtain ⟨h1, h2⟩ := hpair
    all_goals subst h1
    all_goals subst h2
    all_goals first | rfl | simp at hm
  · intro env path o tr e m hpair hm
    simp only [interp_photo_get_image] at hpair
    repeat' split at hpair
    all_goals rw [Prod.mk.injEq] at hpair
    all_goals obtain ⟨h1, h2⟩ := hpair
    all_goals subst h1
    all_goals subst h2
    all_goals first | rfl | simp at hm

/-- C6 (amended) witness: a concrete validation error of each kind with
its call trace. -/
theorem validation_errors_and_native_calls_witness :
    (interp_photo_put_block [] "p" [7] 1 1 none).1 = [] ∧
    (interp_photo_put_zoomed_block [] "p" [7] 1 1 none).1 = [] ∧
    (interp_photo_get_image [("p", ⟨1, 1, [0,0,0,0]⟩)] "p" (some { x := some 3 })).1 =
      [.findPhoto "p", .photoGetImage] :=
  ⟨validation_errors_and_native_calls.1 [] "p" [7] 1 1 none _ _
      (sizeMismatchMsg 4 1) rfl rfl,
   validation_errors_and_native_calls.2.1 [] "p" [7] 1 1 none _ _
      (sizeMismatchMsg 4 1) rfl rfl,
   validation_errors_and_native_calls.2.2 [("p", ⟨1, 1, [0,0,0,0]⟩)] "p"
      (some { x := some 3 }) _ _ "offset outside image bounds" rfl rfl⟩

/-- C7: if any provided zoom or subsample factor is ≤ 0, the call to
`photo_put_zoomed_block` raises an argument error with an empty
native-call trace: no native write (indeed no native call at all)
occurs. -/
theorem put_zoomed_block_nonpositive_factors (env : TkEnv) (path : String) (l : List Nat)
    (w h : Int) (o : PutZoomedOpts) (v : Int) (hv : v ≤ 0)
    (hfac : o.zoom_x = some v ∨ o.zoom_y = some v ∨
      o.subsample_x = some v ∨ o.subsample_y = some v) :
    (interp_photo_put_zoomed_block env path l w h (some o)).1 = [] ∧
    ∃ m, (interp_photo_put_zoomed_block env path l w h (some o)).2 =
      .error (.argError m) := by
  simp only [interp_photo_put_zoomed_block, Option.some_bind]
  split
  · exact ⟨rfl, _, rfl⟩
  · split
    · exact ⟨rfl, _, rfl⟩
    · split
      · exact ⟨rfl, _, rfl⟩
      · split
        · exact ⟨rfl, _, rfl⟩
        · rename_i hz hs
          exfalso
          rcases hfac with hf | hf | hf | hf
          · exact absurd (Or.inl (by rw [hf]; simpa using hv)) hz
          · exact absurd (Or.inr (by rw [hf]; simpa using hv)) hz
          · exact absurd (Or.inl (by rw [hf]; simpa using hv)) hs
          · exact absurd (Or.inr (by rw [hf]; simpa using hv)) hs

/-- C7 witness: a zero zoom factor is rejected with no native call. -/
theorem put_zoomed_block_nonpositive_factors_witness :
    (interp_photo_put_zoomed_block [] "p" [0,0,0,0] 1 1
        (some { zoom_x := some 0 })).1 = [] ∧
    ∃ m, (interp_photo_put_zoomed_block [] "p" [0,0,0,0] 1 1
        (some { zoom_x := some 0 })).2 = .error (.argError m) :=
  put_zoomed_block_nonpositive_factors [] "p" [0,0,0,0] 1 1
    { zoom_x := some 0 } 0 (by decide) (Or.inl rfl)

/-- C8: splitting `nil` or the empty string yields the empty sequence
and no error (no native list call is even made, for any behaviour of
the native splitter). -/
theorem tcl_split_list_empty (split : String → Option (List String))
    (input : Option String)
    (h : input = none ∨ input = some "") :
    interp_tcl_split_list split input = ([], .ok []) := by
  rcases h with h | h <;> subst h <;> rfl

/-- C8 witness: both `nil` and `""` return the empty sequence. -/
theorem tcl_split_list_empty_witness :
    interp_tcl_split_list (fun _ => none) none = ([], .ok []) ∧
    interp_tcl_split_list (fun _ => none) (some "") = ([], .ok []) :=
  ⟨tcl_split_list_empty (fun _ => none) none (Or.inl rfl),
   tcl_split_list_empty (fun _ => none) (some "") (Or.inr rfl)⟩

/-- C9: with Tk initialized, hit-testing coordinates at which no Tk
window is found — or at which the found window has no path name —
returns `nil` (`.ok none`), never an error. -/
theorem coords_to_window_no_window (env : WinEnv) (x y : Int) (mw : Nat)
    (hmw : env.mainWin = some mw)
    (h : env.coordsToWin x y = none ∨
      ∃ wfound, env.coordsToWin x y = some wfound ∧ env.pathName wfound = none) :
    (interp_coords_to_window env x y).2 = .ok none := by
  simp only [interp_coords_to_window, hmw]
  rcases h with h | ⟨wf, h1, h2⟩
  · simp only [h]
  · simp only [h1, h2]

/-- C9 witness: a window system with no window at (3,4). -/
theorem coords_to_window_no_window_witness :
    (interp_coords_to_window ⟨some 0, fun _ _ => none, fun _ => none⟩ 3 4).2 = .ok none :=
  coords_to_window_no_window ⟨some 0, fun _ _ => none, fun _ => none⟩ 3 4 0 rfl (Or.inl rfl)

/-- C10: a negative `:x` (resp. `:y`) offset to `photo_get_image` is
silently clamped to 0 — the call returns exactly what it returns with
offset 0 on that axis — and on a nonempty image negative offsets alone
(with the region defaulted) never produce the out-of-bounds error: the
read succeeds. -/
theorem photo_get_image_negative_offset_clamped (env : TkEnv) (path : String)
    (o : GetImageOpts) (xv yv : Int) :
    (o.x = some xv → xv < 0 →
      interp_photo_get_image env path (some o) =
        interp_photo_get_image env path (some { o with x := some 0 })) ∧
    (o.y = some yv → yv < 0 →
      interp_photo_get_image env path (some o) =
        interp_photo_get_image env path (some { o with y := some 0 })) ∧
    (∀ img, o.x = some xv → xv < 0 → o.y = some yv → yv < 0 →
      findPhoto env path = some img → 0 < img.width → 0 < img.height →
      o.width = none → o.height = none →
      ∃ r, (interp_photo_get_image env path (some o)).2 = .ok r) := by
  refine ⟨?_, ?_, ?_⟩
  · intro hx hneg
    simp only [interp_photo_get_image, Option.some_bind, hx, Option.getD_some,
      Option.map_some', if_pos hneg, ite_self]
  · intro hy hneg
    simp only [interp_photo_get_image, Option.some_bind, hy, Option.getD_some,
      Option.map_some', if_pos hneg, ite_self]
  · intro img hx hxneg hy hyneg hfind hw hh hwidth hheight
    simp only [interp_photo_get_image, hfind, Tk_PhotoGetImage, Option.some_bind,
      hx, hy, hwidth, hheight, Option.getD_some, Option.getD_none, Option.map_some',
      if_pos hxneg, if_pos hyneg]
    rw [if_neg (by omega :
      ¬((0 : Int) ≥ (img.width : Int) ∨ (0 : Int) ≥ (img.height : Int)))]
    rw [if_neg (by omega : ¬((0 : Int) + (img.width : Int) > (img.width : Int))),
      if_neg (by omega : ¬((0 : Int) + (img.height : Int) > (img.height : Int)))]
    rw [if_neg (by omega : ¬((img.width : Int) ≤ 0 ∨ (img.height : Int) ≤ 0))]
    cases hu : o.unpack <;> simp only [hu, Bool.false_eq_true, if_false, ite_false,
      if_true, ite_true] <;> exact ⟨_, rfl⟩

/-- C10 witness: negative offsets on a concrete 2x2 image behave as
offset 0 and the defaulted read succeeds. -/
theorem photo_get_image_negative_offset_clamped_witness :
    (interp_photo_get_image [("p", ⟨2, 2, List.replicate 16 5⟩)] "p"
        (some { x := some (-1), y := some (-2) }) =
      interp_photo_get_image [("p", ⟨2, 2, List.replicate 16 5⟩)] "p"
        (some { x := some 0, y := some (-2) })) ∧
    ∃ r, (interp_photo_get_image [("p", ⟨2, 2, List.replicate 16 5⟩)] "p"
        (some { x := some (-1), y := some (-2) })).2 = .ok r :=
  ⟨(photo_get_image_negative_offset_clamped [("p", ⟨2, 2, List.replicate 16 5⟩)] "p"
      { x := some (-1), y := some (-2) } (-1) (-2)).1 rfl (by decide),
   (photo_get_image_negative_offset_clamped [("p", ⟨2, 2, List.replicate 16 5⟩)] "p"
      { x := some (-1), y := some (-2) } (-1) (-2)).2.2 ⟨2, 2, List.replicate 16 5⟩
     rfl (by decide) rfl (by decide) rfl (by decide) (by decide) rfl rfl⟩

end TkNg
